import Mathlib

/-!
Shallow embedding of `drvAsynIsegVdsApp/src/drvAsynIsegVds.cpp`, the EPICS
asyn driver for the ISEG VDS VME power-supply module, together with theorems
checking the natural-language specification against the code.

The driver has four entry points (`readUInt32Digital`, `writeUInt32Digital`,
`readFloat64`, `writeFloat64`).  Each translates a framework call into at most
one 32-bit VME register access through the external `VmeMaster` library.  The
register address is computed from two lookup tables (`_modcmds`, `_chancmds`)
populated in the constructor, plus the static `chanAddr` array for channel
parameters.

Modelling conventions:
* 32-bit machine integers (`epicsUInt32`) are `Nat` values; where a value
  crosses an `epicsUInt32` boundary it is reduced by `u32` (`% 2 ^ 32`).
* IEEE-754 floats are kept abstract: the development is parametric in the
  types `F32`/`F64` and a record `FloatOps` of the operations the code uses
  (union bit reinterpretation, widening/narrowing conversion, the two scale
  factors).  Theorems therefore capture exactly which conversions the code
  applies, independent of floating-point arithmetic.
* The VME bus is an oracle `VmeMaster`; a `VmeException` is the `.error`
  case of `Except`.  Each entry point additionally returns the list of bus
  accesses it performed (its trace), so "no access" / "one access" claims are
  statements about that list.
* External `asynPortDriver` bookkeeping (`getAddress`, `setUIntDigitalParam`,
  `getUIntDigitalParam`, `setDoubleParam`) is modelled from its documented
  asyn semantics; the driver is constructed with `maxAddr = 8` and the
  `ASYN_MULTIDEVICE` flag, so `getAddress` accepts addresses `0 ≤ a < 8`.
* The parameter identifiers `P_ModStatus`, ..., `P_ChanIBounds` are declared
  in `drvAsynIsegVds.h` (not part of the sources available here); they are
  the distinct indices `createParam` assigns in creation order, so an entry
  point's `function` argument is an arbitrary `Nat`.
-/

/-- Reduction of a natural number to an `epicsUInt32` value. -/
def u32 (n : Nat) : Nat := n % 2 ^ 32

/-!
The parameter identifiers of the driver, one per `createParam` call in the
constructor (`drvAsynIsegVds.cpp` lines 331-357).  Modelled from the spec:
the `int` members `P_ModStatus` ... `P_ChanIBounds` are declared in the
missing header `drvAsynIsegVds.h`; the asyn framework's `createParam`
assigns consecutive parameter indices in creation order, starting at 0.
An entry point's `function = pasynUser->reason` is an arbitrary `int`, so it
may also fall outside this range.
-/

def P_ModStatus : Nat := 0
def P_ModEvtStatus : Nat := 1
def P_ModEvtMask : Nat := 2
def P_ModCtrl : Nat := 3
def P_ModEvtChanStatus : Nat := 4
def P_ModEvtChanMask : Nat := 5
def P_ModEvtGrpStatus : Nat := 6
def P_ModEvtGrpMask : Nat := 7
def P_VRamp : Nat := 8
def P_CRamp : Nat := 9
def P_VMax : Nat := 10
def P_IMax : Nat := 11
def P_SupplyP5 : Nat := 12
def P_SupplyP12 : Nat := 13
def P_SupplyN12 : Nat := 14
def P_Temperature : Nat := 15
def P_ChanStatus : Nat := 16
def P_ChanEvtStatus : Nat := 17
def P_ChanEvtMask : Nat := 18
def P_ChanCtrl : Nat := 19
def P_ChanVset : Nat := 20
def P_ChanIset : Nat := 21
def P_ChanVmom : Nat := 22
def P_ChanImom : Nat := 23
def P_ChanVBounds : Nat := 24
def P_ChanIBounds : Nat := 25

/-- The static channel base-offset table (`drvAsynIsegVds.cpp` lines 64-65):
`static const epicsUInt32 chanAddr[8]`. -/
def chanAddr : List Nat :=
  [0x0100, 0x0140, 0x0180, 0x01c0, 0x0200, 0x0240, 0x0280, 0x02c0]

/-- The module-parameter table `_modcmds` (`std::map<int, epicsUInt32>`),
populated once by the 16 `insert` calls of the constructor
(`drvAsynIsegVds.cpp` lines 359-374) and never modified; `modcmds function`
is `_modcmds.find(function)`. -/
def modcmds (function : Nat) : Option Nat :=
  List.lookup function
    [(P_ModStatus, 0x0000), (P_ModEvtStatus, 0x0004),
     (P_ModEvtMask, 0x0008), (P_ModCtrl, 0x000c),
     (P_ModEvtChanStatus, 0x0010), (P_ModEvtChanMask, 0x0014),
     (P_ModEvtGrpStatus, 0x0018), (P_ModEvtGrpMask, 0x001c),
     (P_VRamp, 0x0020), (P_CRamp, 0x0024),
     (P_VMax, 0x0028), (P_IMax, 0x002c),
     (P_SupplyP5, 0x0040), (P_SupplyP12, 0x0044),
     (P_SupplyN12, 0x0048), (P_Temperature, 0x004c)]

/-- The channel-parameter table `_chancmds` (`std::map<int, epicsUInt32>`),
populated once by the 10 `insert` calls of the constructor
(`drvAsynIsegVds.cpp` lines 376-385) and never modified; `chancmds function`
is `_chancmds.find(function)`. -/
def chancmds (function : Nat) : Option Nat :=
  List.lookup function
    [(P_ChanStatus, 0x0000), (P_ChanEvtStatus, 0x0004),
     (P_ChanEvtMask, 0x0008), (P_ChanCtrl, 0x000c),
     (P_ChanVset, 0x0010), (P_ChanIset, 0x0014),
     (P_ChanVmom, 0x0018), (P_ChanImom, 0x001c),
     (P_ChanVBounds, 0x0020), (P_ChanIBounds, 0x0024)]

/-- The address-translation block shared verbatim by all four entry points
(e.g. `drvAsynIsegVds.cpp` lines 91-97): look `function` up in `_modcmds`;
if absent look it up in `_chancmds` and add `chanAddr[addr]`; if absent from
both, the entry point returns `asynError`. -/
def lookupVmeAddr (function : Nat) (addr : Nat) : Option Nat :=
  match modcmds function with
  | some off => some off
  | none =>
    match chancmds function with
    | some off => some (chanAddr.getD addr 0 + off)
    | none => none

/-- Modelled from the spec: `asynPortDriver::getAddress` of the external asyn
framework.  The driver is constructed with `maxAddr = 8` and flag
`ASYN_MULTIDEVICE` (`drvAsynIsegVds.cpp` lines 310, 314), so the framework
accepts exactly the channel addresses `0 ≤ a < maxAddr` and reports an error
status otherwise. -/
def getAddress (maxAddr : Nat) (rawAddr : Int) : Option Nat :=
  if 0 ≤ rawAddr ∧ rawAddr < maxAddr then some rawAddr.toNat else none

/-- asyn status codes (only the two the driver produces). -/
inductive AsynStatus where
  | asynSuccess
  | asynError
deriving DecidableEq, Repr

open AsynStatus

/-- A single VME bus access performed through the `VmeMaster` library:
either `readRegisterA16D32(base, addr)` or
`writeRegisterA16D32(base, addr, value)`. -/
inductive VmeOp where
  | readA16D32 (base addr : Nat)
  | writeA16D32 (base addr value : Nat)
deriving DecidableEq, Repr

/-- The base address an access was issued with. -/
def VmeOp.base : VmeOp → Nat
  | .readA16D32 b _ => b
  | .writeA16D32 b _ _ => b

/-- The register offset an access was issued with. -/
def VmeOp.offset : VmeOp → Nat
  | .readA16D32 _ a => a
  | .writeA16D32 _ a _ => a

/-- The external VME-access library (`VmeMaster.h`), as an oracle: a read
either yields a 32-bit datum or throws `VmeException` (the `.error` case,
carrying `e.what()`); a write either succeeds or throws. -/
structure VmeMaster where
  readRegisterA16D32 : Nat → Nat → Except String Nat
  writeRegisterA16D32 : Nat → Nat → Nat → Except String Unit

/-- Whether an access fails (throws `VmeException`) on the given bus. -/
def VmeOp.fails (vme : VmeMaster) : VmeOp → Bool
  | .readA16D32 b a =>
    match vme.readRegisterA16D32 b a with
    | .error _ => true
    | .ok _ => false
  | .writeA16D32 b a v =>
    match vme.writeRegisterA16D32 b a v with
    | .error _ => true
    | .ok _ => false

/-- The floating-point operations the driver uses, kept abstract.  `F32` is
`epicsFloat32`, `F64` is `epicsFloat64`.  `bitsToF32`/`f32ToBits` are the two
directions of the `float_t` union (`drvAsynIsegVds.cpp` lines 55-58);
`mulMega` is `*= 1.e6`, `mulMicro` is `*= 1.e-6`. -/
structure FloatOps (F32 F64 : Type) where
  bitsToF32 : Nat → F32
  f32ToBits : F32 → Nat
  f32ToF64 : F32 → F64
  f64ToF32 : F64 → F32
  mulMega : F32 → F32
  mulMicro : F32 → F32

/-- The mutable state of a `drvAsynIsegVds` instance: the VME base address
`_base` fixed by the constructor, and the asynPortDriver parameter library
(one `UInt32` slot and one double slot per (channel address, parameter)). -/
structure DriverState (F64 : Type) where
  base : Nat
  uintParams : Nat → Nat → Nat
  doubleParams : Nat → Nat → Option F64

/-- The constructor `drvAsynIsegVds::drvAsynIsegVds(portName, BA)`
(`drvAsynIsegVds.cpp` lines 308-387): stores `_base = BA`; parameters start
unset (`UInt32` slots zero-initialised, doubles undefined). -/
def drvAsynIsegVds (F64 : Type) (BA : Nat) : DriverState F64 :=
  { base := BA
    uintParams := fun _ _ => 0
    doubleParams := fun _ _ => none }

/-- Modelled from asyn semantics: `asynPortDriver::setUIntDigitalParam`
merges the masked bits of `value` into the stored value:
bits set in `valueMask` come from `value`, the rest keep their old value. -/
def setUIntDigitalParam {F64 : Type} (s : DriverState F64) (addr : Nat)
    (function : Nat) (value mask : Nat) : DriverState F64 :=
  { s with uintParams := fun a p =>
      if a = addr ∧ p = function then
        (s.uintParams a p &&& (0xFFFFFFFF ^^^ mask)) ||| (value &&& mask)
      else s.uintParams a p }

/-- Modelled from asyn semantics: `asynPortDriver::getUIntDigitalParam`
returns the stored value filtered through the mask. -/
def getUIntDigitalParam {F64 : Type} (s : DriverState F64) (addr : Nat)
    (function : Nat) (mask : Nat) : Nat :=
  s.uintParams addr function &&& mask

/-- Modelled from asyn semantics: `asynPortDriver::setDoubleParam` stores the
double value in the parameter library. -/
def setDoubleParam {F64 : Type} (s : DriverState F64) (addr : Nat)
    (function : Nat) (value : F64) : DriverState F64 :=
  { s with doubleParams := fun a p =>
      if a = addr ∧ p = function then some value else s.doubleParams a p }

/-- Result of one entry-point invocation: the returned `asynStatus`, the value
written to the out parameter (`none` when the call never writes it), the
driver state after the call, the list of VME bus accesses performed during
the call, and the message stored in `pasynUser->errorMessage` (`none` when
the call stores no message). -/
structure CallResult (F64 α : Type) where
  status : AsynStatus
  value : Option α
  state : DriverState F64
  trace : List VmeOp
  errorMessage : Option String

/-- `static const char *driverName` (`drvAsynIsegVds.cpp` line 63). -/
def driverName : String := "drvAsynIsegVdsDriver"

/-- The `"%s:%s: function=%d %s"` message formatted into
`pasynUser->errorMessage` when a `VmeException` is caught. -/
def mkErrMsg (functionName e : String) : String :=
  driverName ++ ":" ++ functionName ++ ": " ++ e

/-- Modelled from asyn semantics: `asynPortDriver::getDoubleParam` returns
the stored double, failing when the parameter is still undefined. -/
def getDoubleParam {F64 : Type} (s : DriverState F64) (addr : Nat)
    (function : Nat) : Option F64 :=
  s.doubleParams addr function

/-- `drvAsynIsegVds::readUInt32Digital` (`drvAsynIsegVds.cpp` lines 80-120):
resolve the channel address, translate `function` through the two tables,
read one 32-bit register, store the datum in the parameter library with the
caller's mask and return the masked stored value. -/
def readUInt32Digital {F64 : Type} (vme : VmeMaster) (s : DriverState F64)
    (rawAddr : Int) (function : Nat) (mask : Nat) : CallResult F64 Nat :=
  match getAddress 8 rawAddr with
  | none => ⟨asynError, none, s, [], none⟩
  | some addr =>
    match lookupVmeAddr function addr with
    | none => ⟨asynError, none, s, [], none⟩
    | some vmeAddr =>
      match vme.readRegisterA16D32 s.base vmeAddr with
      | .error e =>
        ⟨asynError, none, s, [VmeOp.readA16D32 s.base vmeAddr],
          some (mkErrMsg "readUInt32Digital" e)⟩
      | .ok raw =>
        let vmeData := u32 raw
        let s' := setUIntDigitalParam s addr function vmeData (u32 mask)
        let out := getUIntDigitalParam s' addr function (u32 mask)
        ⟨asynSuccess, some out, s', [VmeOp.readA16D32 s.base vmeAddr], none⟩

/-- `drvAsynIsegVds::writeUInt32Digital` (`drvAsynIsegVds.cpp` lines
133-179): return `asynSuccess` at once for the read-only parameters
`P_ModStatus`/`P_ChanStatus`; otherwise translate the address, write one
32-bit register and update the stored parameter value.
(`callParamCallbacks` only notifies clients and is modelled as a no-op.) -/
def writeUInt32Digital {F64 : Type} (vme : VmeMaster) (s : DriverState F64)
    (rawAddr : Int) (function : Nat) (value mask : Nat) : CallResult F64 Unit :=
  if function = P_ModStatus ∨ function = P_ChanStatus then
    ⟨asynSuccess, none, s, [], none⟩
  else
    match getAddress 8 rawAddr with
    | none => ⟨asynError, none, s, [], none⟩
    | some addr =>
      match lookupVmeAddr function addr with
      | none => ⟨asynError, none, s, [], none⟩
      | some vmeAddr =>
        match vme.writeRegisterA16D32 s.base vmeAddr (u32 value) with
        | .error e =>
          ⟨asynError, none, s, [VmeOp.writeA16D32 s.base vmeAddr (u32 value)],
            some (mkErrMsg "writeUInt32Digital" e)⟩
        | .ok _ =>
          let s' := setUIntDigitalParam s addr function (u32 value) (u32 mask)
          ⟨asynSuccess, none, s',
            [VmeOp.writeA16D32 s.base vmeAddr (u32 value)], none⟩

/-- `drvAsynIsegVds::readFloat64` (`drvAsynIsegVds.cpp` lines 191-235):
translate the address, read one 32-bit register, reinterpret the datum as an
IEEE-754 single through the `float_t` union, scale by `1.e6` for
`P_ChanImom`/`P_ChanIset`, store it as a double and return the stored
value. -/
def readFloat64 {F32 F64 : Type} (ops : FloatOps F32 F64) (vme : VmeMaster)
    (s : DriverState F64) (rawAddr : Int) (function : Nat) :
    CallResult F64 F64 :=
  match getAddress 8 rawAddr with
  | none => ⟨asynError, none, s, [], none⟩
  | some addr =>
    match lookupVmeAddr function addr with
    | none => ⟨asynError, none, s, [], none⟩
    | some vmeAddr =>
      match vme.readRegisterA16D32 s.base vmeAddr with
      | .error e =>
        ⟨asynError, none, s, [VmeOp.readA16D32 s.base vmeAddr],
          some (mkErrMsg "readFloat64" e)⟩
      | .ok raw =>
        let data0 := ops.bitsToF32 (u32 raw)
        let data :=
          if function = P_ChanImom ∨ function = P_ChanIset then ops.mulMega data0
          else data0
        let s' := setDoubleParam s addr function (ops.f32ToF64 data)
        let out := getDoubleParam s' addr function
        ⟨asynSuccess, out, s', [VmeOp.readA16D32 s.base vmeAddr], none⟩

/-- `drvAsynIsegVds::writeFloat64` (`drvAsynIsegVds.cpp` lines 247-299):
return `asynSuccess` at once for the eight read-only parameters; otherwise
narrow the value to single precision, scale by `1.e-6` for `P_ChanIset`,
translate the address, write the union bits to one 32-bit register and store
the original double in the parameter library. -/
def writeFloat64 {F32 F64 : Type} (ops : FloatOps F32 F64) (vme : VmeMaster)
    (s : DriverState F64) (rawAddr : Int) (function : Nat) (value : F64) :
    CallResult F64 Unit :=
  let vmeData0 := ops.f64ToF32 value
  if function = P_VMax ∨ function = P_IMax ∨ function = P_SupplyP5 ∨
      function = P_SupplyP12 ∨ function = P_SupplyN12 ∨
      function = P_Temperature ∨ function = P_ChanVmom ∨ function = P_ChanImom then
    ⟨asynSuccess, none, s, [], none⟩
  else
    match getAddress 8 rawAddr with
    | none => ⟨asynError, none, s, [], none⟩
    | some addr =>
      let vmeData := if function = P_ChanIset then ops.mulMicro vmeData0 else vmeData0
      match lookupVmeAddr function addr with
      | none => ⟨asynError, none, s, [], none⟩
      | some vmeAddr =>
        match vme.writeRegisterA16D32 s.base vmeAddr (u32 (ops.f32ToBits vmeData)) with
        | .error e =>
          ⟨asynError, none, s,
            [VmeOp.writeA16D32 s.base vmeAddr (u32 (ops.f32ToBits vmeData))],
            some (mkErrMsg "writeFloat64" e)⟩
        | .ok _ =>
          let s' := setDoubleParam s addr function value
          ⟨asynSuccess, none, s',
            [VmeOp.writeA16D32 s.base vmeAddr (u32 (ops.f32ToBits vmeData))], none⟩

/-- A trivial instantiation of the abstract float operations (both float
types represented by `Nat`), used to evaluate the driver on concrete
inputs. -/
def natFloatOps : FloatOps Nat Nat :=
  { bitsToF32 := id, f32ToBits := id, f32ToF64 := id, f64ToF32 := id
    mulMega := id, mulMicro := id }

/-- A bus on which every access succeeds; reads return the sum of base and
offset, so distinct registers hold distinct data. -/
def okVme : VmeMaster :=
  { readRegisterA16D32 := fun b a => .ok (b + a)
    writeRegisterA16D32 := fun _ _ _ => .ok () }

/-- A bus on which every access throws `VmeException`. -/
def failVme : VmeMaster :=
  { readRegisterA16D32 := fun _ _ => .error "bus error"
    writeRegisterA16D32 := fun _ _ _ => .error "bus error" }

/-- A concrete freshly constructed driver instance (`BA = 0x4000`). -/
def s0 : DriverState Nat := drvAsynIsegVds Nat 0x4000

theorem set_get_mask (old v m : Nat) (hm : m < 2 ^ 32) :
    ((old &&& (0xFFFFFFFF ^^^ m)) ||| (v &&& m)) &&& m = v &&& m := by
  apply Nat.eq_of_testBit_eq
  intro i
  simp only [Nat.testBit_land, Nat.testBit_lor, Nat.testBit_xor]
  by_cases h : i < 32
  · have hf : Nat.testBit 0xFFFFFFFF i = true := by
      have h32 : (0xFFFFFFFF : Nat) = 2 ^ 32 - 1 := by norm_num
      rw [h32, Nat.testBit_two_pow_sub_one]
      exact decide_eq_true h
    cases hmi : m.testBit i <;> cases hoi : old.testBit i <;>
      cases hvi : v.testBit i <;> simp [hf, hmi, hoi, hvi]
  · have hmi : m.testBit i = false := by
      apply Nat.testBit_eq_false_of_lt
      exact lt_of_lt_of_le hm (Nat.pow_le_pow_right (by norm_num) (Nat.le_of_not_lt h))
    simp [hmi]

example : (readUInt32Digital okVme s0 0 P_ModCtrl 0xFF).status = asynSuccess := by decide
example : (readUInt32Digital okVme s0 0 P_ModCtrl 0xFF).value = some ((0x4000 + 0x000c) % 2 ^ 32 &&& 0xFF) := by decide
example : (readUInt32Digital okVme s0 2 P_ChanVset 0xFFFF).trace = [VmeOp.readA16D32 0x4000 (0x0180 + 0x0010)] := by decide
example : (writeUInt32Digital okVme s0 0 P_ModStatus 5 0xFF).trace = [] := by decide
example : (readFloat64 natFloatOps failVme s0 0 P_VRamp).status = asynError := by decide

theorem u32_lt (n : Nat) : u32 n < 2 ^ 32 := Nat.mod_lt _ (by norm_num)

theorem getUInt_setUInt {F64 : Type} (s : DriverState F64) (addr : Nat)
    (function : Nat) (v m : Nat) (hm : m < 2 ^ 32) :
    getUIntDigitalParam (setUIntDigitalParam s addr function v m) addr function m =
      v &&& m := by
  simp only [getUIntDigitalParam, setUIntDigitalParam]
  simp only [and_self, if_pos, true_and]
  exact set_get_mask _ v m hm

theorem readUInt32Digital_spec {F64 : Type} (vme : VmeMaster) (s : DriverState F64)
    (rawAddr : Int) (function : Nat) (mask : Nat) :
    (getAddress 8 rawAddr = none ∧
      readUInt32Digital vme s rawAddr function mask = ⟨asynError, none, s, [], none⟩) ∨
    (∃ addr, getAddress 8 rawAddr = some addr ∧
      ((lookupVmeAddr function addr = none ∧
         readUInt32Digital vme s rawAddr function mask = ⟨asynError, none, s, [], none⟩) ∨
       (∃ a, lookupVmeAddr function addr = some a ∧
         ((∃ e, vme.readRegisterA16D32 s.base a = .error e ∧
            readUInt32Digital vme s rawAddr function mask =
              ⟨asynError, none, s, [VmeOp.readA16D32 s.base a],
                some (mkErrMsg "readUInt32Digital" e)⟩) ∨
          (∃ d, vme.readRegisterA16D32 s.base a = .ok d ∧
            readUInt32Digital vme s rawAddr function mask =
              ⟨asynSuccess, some (u32 d &&& u32 mask),
                setUIntDigitalParam s addr function (u32 d) (u32 mask),
                [VmeOp.readA16D32 s.base a], none⟩))))) := by
  unfold readUInt32Digital
  split
  next hga => exact Or.inl ⟨hga, rfl⟩
  next addr hga =>
    refine Or.inr ⟨addr, hga, ?_⟩
    split
    next hla => exact Or.inl ⟨hla, rfl⟩
    next a hla =>
      refine Or.inr ⟨a, hla, ?_⟩
      split
      next e hrd => exact Or.inl ⟨e, hrd, rfl⟩
      next raw hrd =>
        refine Or.inr ⟨raw, hrd, ?_⟩
        simp only [getUInt_setUInt s addr function (u32 raw) (u32 mask) (u32_lt mask)]

theorem getDouble_setDouble {F64 : Type} (s : DriverState F64) (addr : Nat)
    (function : Nat) (v : F64) :
    getDoubleParam (setDoubleParam s addr function v) addr function = some v := by
  simp [getDoubleParam, setDoubleParam]

/-- The double value stored and returned by `readFloat64` for register datum
`raw` (`drvAsynIsegVds.cpp` lines 210-223): reinterpret the 32 bits as an
IEEE-754 single through the union, scale by `1.e6` for
`P_ChanImom`/`P_ChanIset`, widen to double. -/
def readFloat64Value {F32 F64 : Type} (ops : FloatOps F32 F64)
    (function : Nat) (raw : Nat) : F64 :=
  ops.f32ToF64 (if function = P_ChanImom ∨ function = P_ChanIset
    then ops.mulMega (ops.bitsToF32 (u32 raw)) else ops.bitsToF32 (u32 raw))

/-- The 32-bit datum `writeFloat64` writes for parameter value `value`
(`drvAsynIsegVds.cpp` lines 253, 269, 280): narrow to single precision,
scale by `1.e-6` for `P_ChanIset`, reinterpret the bits through the union. -/
def writeFloat64Datum {F32 F64 : Type} (ops : FloatOps F32 F64)
    (function : Nat) (value : F64) : Nat :=
  u32 (ops.f32ToBits (if function = P_ChanIset
    then ops.mulMicro (ops.f64ToF32 value) else ops.f64ToF32 value))

theorem writeFloat64Datum_fold {F32 F64 : Type} (ops : FloatOps F32 F64)
    (function : Nat) (value : F64) :
    u32 (ops.f32ToBits (if function = P_ChanIset
        then ops.mulMicro (ops.f64ToF32 value) else ops.f64ToF32 value)) =
      writeFloat64Datum ops function value := rfl

theorem writeUInt32Digital_spec {F64 : Type} (vme : VmeMaster) (s : DriverState F64)
    (rawAddr : Int) (function : Nat) (value mask : Nat) :
    ((function = P_ModStatus ∨ function = P_ChanStatus) ∧
      writeUInt32Digital vme s rawAddr function value mask =
        ⟨asynSuccess, none, s, [], none⟩) ∨
    (¬(function = P_ModStatus ∨ function = P_ChanStatus) ∧
      ((getAddress 8 rawAddr = none ∧
         writeUInt32Digital vme s rawAddr function value mask =
           ⟨asynError, none, s, [], none⟩) ∨
       (∃ addr, getAddress 8 rawAddr = some addr ∧
         ((lookupVmeAddr function addr = none ∧
            writeUInt32Digital vme s rawAddr function value mask =
              ⟨asynError, none, s, [], none⟩) ∨
          (∃ a, lookupVmeAddr function addr = some a ∧
            ((∃ e, vme.writeRegisterA16D32 s.base a (u32 value) = .error e ∧
               writeUInt32Digital vme s rawAddr function value mask =
                 ⟨asynError, none, s, [VmeOp.writeA16D32 s.base a (u32 value)],
                   some (mkErrMsg "writeUInt32Digital" e)⟩) ∨
             (vme.writeRegisterA16D32 s.base a (u32 value) = .ok () ∧
               writeUInt32Digital vme s rawAddr function value mask =
                 ⟨asynSuccess, none,
                   setUIntDigitalParam s addr function (u32 value) (u32 mask),
                   [VmeOp.writeA16D32 s.base a (u32 value)], none⟩))))))) := by
  unfold writeUInt32Digital
  split
  next hro => exact Or.inl ⟨hro, rfl⟩
  next hro =>
    refine Or.inr ⟨hro, ?_⟩
    split
    next hga => exact Or.inl ⟨hga, rfl⟩
    next addr hga =>
      refine Or.inr ⟨addr, hga, ?_⟩
      split
      next hla => exact Or.inl ⟨hla, rfl⟩
      next a hla =>
        refine Or.inr ⟨a, hla, ?_⟩
        split
        next e hwr => exact Or.inl ⟨e, hwr, rfl⟩
        next u hwr =>
          exact Or.inr ⟨by cases u; exact hwr, rfl⟩

theorem readFloat64_spec {F32 F64 : Type} (ops : FloatOps F32 F64) (vme : VmeMaster)
    (s : DriverState F64) (rawAddr : Int) (function : Nat) :
    (getAddress 8 rawAddr = none ∧
      readFloat64 ops vme s rawAddr function = ⟨asynError, none, s, [], none⟩) ∨
    (∃ addr, getAddress 8 rawAddr = some addr ∧
      ((lookupVmeAddr function addr = none ∧
         readFloat64 ops vme s rawAddr function = ⟨asynError, none, s, [], none⟩) ∨
       (∃ a, lookupVmeAddr function addr = some a ∧
         ((∃ e, vme.readRegisterA16D32 s.base a = .error e ∧
            readFloat64 ops vme s rawAddr function =
              ⟨asynError, none, s, [VmeOp.readA16D32 s.base a],
                some (mkErrMsg "readFloat64" e)⟩) ∨
          (∃ raw, vme.readRegisterA16D32 s.base a = .ok raw ∧
            readFloat64 ops vme s rawAddr function =
              ⟨asynSuccess, some (readFloat64Value ops function raw),
                setDoubleParam s addr function (readFloat64Value ops function raw),
                [VmeOp.readA16D32 s.base a], none⟩))))) := by
  unfold readFloat64
  split
  next hga => exact Or.inl ⟨hga, rfl⟩
  next addr hga =>
    refine Or.inr ⟨addr, hga, ?_⟩
    split
    next hla => exact Or.inl ⟨hla, rfl⟩
    next a hla =>
      refine Or.inr ⟨a, hla, ?_⟩
      split
      next e hrd => exact Or.inl ⟨e, hrd, rfl⟩
      next raw hrd =>
        refine Or.inr ⟨raw, hrd, ?_⟩
        simp only [readFloat64Value, getDouble_setDouble]

theorem writeFloat64_spec {F32 F64 : Type} (ops : FloatOps F32 F64) (vme : VmeMaster)
    (s : DriverState F64) (rawAddr : Int) (function : Nat) (value : F64) :
    ((function = P_VMax ∨ function = P_IMax ∨ function = P_SupplyP5 ∨
        function = P_SupplyP12 ∨ function = P_SupplyN12 ∨
        function = P_Temperature ∨ function = P_ChanVmom ∨ function = P_ChanImom) ∧
      writeFloat64 ops vme s rawAddr function value =
        ⟨asynSuccess, none, s, [], none⟩) ∨
    (¬(function = P_VMax ∨ function = P_IMax ∨ function = P_SupplyP5 ∨
        function = P_SupplyP12 ∨ function = P_SupplyN12 ∨
        function = P_Temperature ∨ function = P_ChanVmom ∨ function = P_ChanImom) ∧
      ((getAddress 8 rawAddr = none ∧
         writeFloat64 ops vme s rawAddr function value =
           ⟨asynError, none, s, [], none⟩) ∨
       (∃ addr, getAddress 8 rawAddr = some addr ∧
         ((lookupVmeAddr function addr = none ∧
            writeFloat64 ops vme s rawAddr function value =
              ⟨asynError, none, s, [], none⟩) ∨
          (∃ a, lookupVmeAddr function addr = some a ∧
            ((∃ e, vme.writeRegisterA16D32 s.base a
                     (writeFloat64Datum ops function value) = .error e ∧
               writeFloat64 ops vme s rawAddr function value =
                 ⟨asynError, none, s,
                   [VmeOp.writeA16D32 s.base a (writeFloat64Datum ops function value)],
                   some (mkErrMsg "writeFloat64" e)⟩) ∨
             (vme.writeRegisterA16D32 s.base a
                 (writeFloat64Datum ops function value) = .ok () ∧
               writeFloat64 ops vme s rawAddr function value =
                 ⟨asynSuccess, none, setDoubleParam s addr function value,
                   [VmeOp.writeA16D32 s.base a (writeFloat64Datum ops function value)],
                   none⟩))))))) := by
  unfold writeFloat64
  split
  next hro => exact Or.inl ⟨hro, rfl⟩
  next hro =>
    refine Or.inr ⟨hro, ?_⟩
    simp only [writeFloat64Datum_fold]
    split
    next hga => exact Or.inl ⟨hga, rfl⟩
    next addr hga =>
      refine Or.inr ⟨addr, hga, ?_⟩
      split
      next hla => exact Or.inl ⟨hla, rfl⟩
      next a hla =>
        refine Or.inr ⟨a, hla, ?_⟩
        split
        next e hwr => exact Or.inl ⟨e, hwr, rfl⟩
        next u hwr =>
          exact Or.inr ⟨by cases u; exact hwr, rfl⟩

theorem lookupVmeAddr_mod (function : Nat) (addr off : Nat)
    (h : modcmds function = some off) : lookupVmeAddr function addr = some off := by
  unfold lookupVmeAddr
  rw [h]

theorem lookupVmeAddr_chan (function : Nat) (addr off : Nat)
    (h1 : modcmds function = none) (h2 : chancmds function = some off) :
    lookupVmeAddr function addr = some (chanAddr.getD addr 0 + off) := by
  unfold lookupVmeAddr
  rw [h1, h2]

theorem readUInt32Digital_trace_mem {F64 : Type} (vme : VmeMaster)
    (s : DriverState F64) (rawAddr : Int) (function : Nat) (mask : Nat)
    (op : VmeOp) (hop : op ∈ (readUInt32Digital vme s rawAddr function mask).trace) :
    ∃ addr a, getAddress 8 rawAddr = some addr ∧
      lookupVmeAddr function addr = some a ∧ op = VmeOp.readA16D32 s.base a := by
  rcases readUInt32Digital_spec vme s rawAddr function mask with ⟨_, he⟩ | ⟨addr, hga, h⟩
  · rw [he] at hop; cases hop
  · rcases h with ⟨_, he⟩ | ⟨a, hla, h⟩
    · rw [he] at hop; cases hop
    · rcases h with ⟨e, _, he⟩ | ⟨d, _, he⟩ <;> rw [he] at hop <;>
        simp only [List.mem_singleton] at hop <;> exact ⟨addr, a, hga, hla, hop⟩

theorem writeUInt32Digital_trace_mem {F64 : Type} (vme : VmeMaster)
    (s : DriverState F64) (rawAddr : Int) (function : Nat) (value mask : Nat)
    (op : VmeOp)
    (hop : op ∈ (writeUInt32Digital vme s rawAddr function value mask).trace) :
    ∃ addr a, getAddress 8 rawAddr = some addr ∧
      lookupVmeAddr function addr = some a ∧
      op = VmeOp.writeA16D32 s.base a (u32 value) := by
  rcases writeUInt32Digital_spec vme s rawAddr function value mask with
    ⟨_, he⟩ | ⟨_, h⟩
  · rw [he] at hop; cases hop
  · rcases h with ⟨_, he⟩ | ⟨addr, hga, h⟩
    · rw [he] at hop; cases hop
    · rcases h with ⟨_, he⟩ | ⟨a, hla, h⟩
      · rw [he] at hop; cases hop
      · rcases h with ⟨e, _, he⟩ | ⟨_, he⟩ <;> rw [he] at hop <;>
          simp only [List.mem_singleton] at hop <;> exact ⟨addr, a, hga, hla, hop⟩

theorem readFloat64_trace_mem {F32 F64 : Type} (ops : FloatOps F32 F64)
    (vme : VmeMaster) (s : DriverState F64) (rawAddr : Int) (function : Nat)
    (op : VmeOp) (hop : op ∈ (readFloat64 ops vme s rawAddr function).trace) :
    ∃ addr a, getAddress 8 rawAddr = some addr ∧
      lookupVmeAddr function addr = some a ∧ op = VmeOp.readA16D32 s.base a := by
  rcases readFloat64_spec ops vme s rawAddr function with ⟨_, he⟩ | ⟨addr, hga, h⟩
  · rw [he] at hop; cases hop
  · rcases h with ⟨_, he⟩ | ⟨a, hla, h⟩
    · rw [he] at hop; cases hop
    · rcases h with ⟨e, _, he⟩ | ⟨d, _, he⟩ <;> rw [he] at hop <;>
        simp only [List.mem_singleton] at hop <;> exact ⟨addr, a, hga, hla, hop⟩

theorem writeFloat64_trace_mem {F32 F64 : Type} (ops : FloatOps F32 F64)
    (vme : VmeMaster) (s : DriverState F64) (rawAddr : Int) (function : Nat)
    (value : F64) (op : VmeOp)
    (hop : op ∈ (writeFloat64 ops vme s rawAddr function value).trace) :
    ∃ addr a, getAddress 8 rawAddr = some addr ∧
      lookupVmeAddr function addr = some a ∧
      op = VmeOp.writeA16D32 s.base a (writeFloat64Datum ops function value) := by
  rcases writeFloat64_spec ops vme s rawAddr function value with
    ⟨_, he⟩ | ⟨_, h⟩
  · rw [he] at hop; cases hop
  · rcases h with ⟨_, he⟩ | ⟨addr, hga, h⟩
    · rw [he] at hop; cases hop
    · rcases h with ⟨_, he⟩ | ⟨a, hla, h⟩
      · rw [he] at hop; cases hop
      · rcases h with ⟨e, _, he⟩ | ⟨_, he⟩ <;> rw [he] at hop <;>
          simp only [List.mem_singleton] at hop <;> exact ⟨addr, a, hga, hla, hop⟩

theorem lookupVmeAddr_none (function : Nat) (addr : Nat)
    (h1 : modcmds function = none) (h2 : chancmds function = none) :
    lookupVmeAddr function addr = none := by
  unfold lookupVmeAddr
  rw [h1, h2]

/-- C1: for every call to `readUInt32Digital`, `writeUInt32Digital`,
`readFloat64` or `writeFloat64` whose parameter identifier is in the module
table `_modcmds`, the VME register address accessed equals exactly the fixed
offset stored for that identifier; if the identifier is instead in the
channel table `_chancmds`, the address equals `chanAddr[addr]` plus the fixed
channel offset.  Both tables are the static maps `modcmds`/`chancmds`
populated once in the constructor, so the identifier-to-offset mapping is the
same for every call. -/
theorem c1_static_address_map {F32 F64 : Type} (ops : FloatOps F32 F64)
    (vme : VmeMaster) (s : DriverState F64) (rawAddr : Int) (function : Nat)
    (mask value : Nat) (fval : F64) (addr : Nat)
    (hga : getAddress 8 rawAddr = some addr) (op : VmeOp)
    (hop : op ∈ (readUInt32Digital vme s rawAddr function mask).trace ∨
           op ∈ (writeUInt32Digital vme s rawAddr function value mask).trace ∨
           op ∈ (readFloat64 ops vme s rawAddr function).trace ∨
           op ∈ (writeFloat64 ops vme s rawAddr function fval).trace) :
    (∀ off, modcmds function = some off → op.offset = off) ∧
    (modcmds function = none →
      ∀ off, chancmds function = some off →
        op.offset = chanAddr.getD addr 0 + off) := by
  have key : ∃ a, lookupVmeAddr function addr = some a ∧ op.offset = a := by
    rcases hop with h | h | h | h
    · obtain ⟨addr', a, hga', hla, rfl⟩ :=
        readUInt32Digital_trace_mem vme s rawAddr function mask op h
      rw [hga] at hga'
      obtain rfl := Option.some.inj hga'
      exact ⟨a, hla, rfl⟩
    · obtain ⟨addr', a, hga', hla, rfl⟩ :=
        writeUInt32Digital_trace_mem vme s rawAddr function value mask op h
      rw [hga] at hga'
      obtain rfl := Option.some.inj hga'
      exact ⟨a, hla, rfl⟩
    · obtain ⟨addr', a, hga', hla, rfl⟩ :=
        readFloat64_trace_mem ops vme s rawAddr function op h
      rw [hga] at hga'
      obtain rfl := Option.some.inj hga'
      exact ⟨a, hla, rfl⟩
    · obtain ⟨addr', a, hga', hla, rfl⟩ :=
        writeFloat64_trace_mem ops vme s rawAddr function fval op h
      rw [hga] at hga'
      obtain rfl := Option.some.inj hga'
      exact ⟨a, hla, rfl⟩
  obtain ⟨a, hla, hoff⟩ := key
  constructor
  · intro off hmod
    rw [lookupVmeAddr_mod function addr off hmod] at hla
    obtain rfl := Option.some.inj hla
    exact hoff
  · intro hmod off hchan
    rw [lookupVmeAddr_chan function addr off hmod hchan] at hla
    obtain rfl := Option.some.inj hla
    exact hoff

theorem c1_static_address_map_witness :
    VmeOp.offset (VmeOp.readA16D32 0x4000 0x000c) = 0x000c :=
  (c1_static_address_map natFloatOps okVme s0 0 P_ModCtrl 0xFF 0 0 0
      (by decide) (VmeOp.readA16D32 0x4000 0x000c)
      (Or.inl (by decide))).1 0x000c (by decide)

/-- C5: writes to read-only parameters are silent no-ops.
`writeUInt32Digital` called with `P_ModStatus` or `P_ChanStatus`, and
`writeFloat64` called with `P_VMax`, `P_IMax`, `P_SupplyP5`, `P_SupplyP12`,
`P_SupplyN12`, `P_Temperature`, `P_ChanVmom` or `P_ChanImom`, return
`asynSuccess`, perform no VME bus access (empty trace), and leave the driver
state (every stored parameter value) unchanged. -/
theorem c5_readonly_writes_are_noops {F32 F64 : Type} (ops : FloatOps F32 F64)
    (vme : VmeMaster) (s : DriverState F64) (rawAddr : Int) (function : Nat)
    (value mask : Nat) (fval : F64) :
    ((function = P_ModStatus ∨ function = P_ChanStatus) →
      writeUInt32Digital vme s rawAddr function value mask =
        ⟨asynSuccess, none, s, [], none⟩) ∧
    ((function = P_VMax ∨ function = P_IMax ∨ function = P_SupplyP5 ∨
        function = P_SupplyP12 ∨ function = P_SupplyN12 ∨
        function = P_Temperature ∨ function = P_ChanVmom ∨
        function = P_ChanImom) →
      writeFloat64 ops vme s rawAddr function fval =
        ⟨asynSuccess, none, s, [], none⟩) := by
  constructor
  · intro hro
    unfold writeUInt32Digital
    rw [if_pos hro]
  · intro hro
    unfold writeFloat64
    rw [if_pos hro]

theorem c5_readonly_writes_are_noops_witness :
    writeUInt32Digital okVme s0 3 P_ModStatus 0xDEAD 0xFFFF =
      ⟨asynSuccess, none, s0, [], none⟩ ∧
    writeFloat64 natFloatOps okVme s0 3 P_Temperature 42 =
      ⟨asynSuccess, none, s0, [], none⟩ :=
  ⟨(c5_readonly_writes_are_noops natFloatOps okVme s0 3 P_ModStatus 0xDEAD
      0xFFFF 42).1 (Or.inl rfl),
   (c5_readonly_writes_are_noops natFloatOps okVme s0 3 P_Temperature 0xDEAD
      0xFFFF 42).2 (by decide)⟩

/-- C9: whenever the modelled `asynPortDriver::getAddress` succeeds for this
driver (constructed with `maxAddr = 8`), the returned channel address is
below 8 and hence within the bounds of the 8-element `chanAddr` array, so the
`chanAddr[addr]` lookup of the entry points reads the genuine in-bounds
element. -/
theorem c9_getAddress_in_bounds (rawAddr : Int) (addr : Nat)
    (hga : getAddress 8 rawAddr = some addr) :
    addr < 8 ∧ ∃ h : addr < chanAddr.length,
      chanAddr.getD addr 0 = chanAddr.get ⟨addr, h⟩ := by
  unfold getAddress at hga
  split at hga
  next hcond =>
    obtain rfl := Option.some.inj hga
    have h8 : rawAddr.toNat < 8 := by omega
    refine ⟨h8, ?_, ?_⟩
    · show rawAddr.toNat < chanAddr.length
      simp only [chanAddr, List.length]
      omega
    · rw [List.getD_eq_getElem?_getD, List.getElem?_eq_getElem, Option.getD_some]
      rfl
  next => cases hga

theorem c9_getAddress_in_bounds_witness :
    7 < 8 ∧ ∃ h : 7 < chanAddr.length,
      chanAddr.getD 7 0 = chanAddr.get ⟨7, h⟩ :=
  c9_getAddress_in_bounds 7 7 (by decide)

/-- C2: the driver does no caching on reads.  Every invocation of
`readUInt32Digital` or `readFloat64` that returns `asynSuccess` performed a
VME bus read (`readRegisterA16D32`) during that invocation — its trace is
exactly that one read — and the value written to `*value` is derived from
the freshly read register content alone: for `readUInt32Digital` the datum
filtered through the supplied mask, for `readFloat64` the datum after the
union bit reinterpretation and unit conversion.  In particular the result is
independent of every previously stored parameter value. -/
theorem c2_reads_hit_the_bus {F32 F64 : Type} (ops : FloatOps F32 F64)
    (vme : VmeMaster) (s : DriverState F64) (rawAddr : Int) (function : Nat)
    (mask : Nat) :
    ((readUInt32Digital vme s rawAddr function mask).status = asynSuccess →
      ∃ a d, vme.readRegisterA16D32 s.base a = .ok d ∧
        (readUInt32Digital vme s rawAddr function mask).trace =
          [VmeOp.readA16D32 s.base a] ∧
        (readUInt32Digital vme s rawAddr function mask).value =
          some (u32 d &&& u32 mask)) ∧
    ((readFloat64 ops vme s rawAddr function).status = asynSuccess →
      ∃ a raw, vme.readRegisterA16D32 s.base a = .ok raw ∧
        (readFloat64 ops vme s rawAddr function).trace =
          [VmeOp.readA16D32 s.base a] ∧
        (readFloat64 ops vme s rawAddr function).value =
          some (readFloat64Value ops function raw)) := by
  constructor
  · intro hs
    rcases readUInt32Digital_spec vme s rawAddr function mask with
      ⟨_, he⟩ | ⟨addr, _, h⟩
    · rw [he] at hs; cases hs
    · rcases h with ⟨_, he⟩ | ⟨a, _, h⟩
      · rw [he] at hs; cases hs
      · rcases h with ⟨e, hrd, he⟩ | ⟨d, hrd, he⟩
        · rw [he] at hs; cases hs
        · exact ⟨a, d, hrd, by rw [he], by rw [he]⟩
  · intro hs
    rcases readFloat64_spec ops vme s rawAddr function with
      ⟨_, he⟩ | ⟨addr, _, h⟩
    · rw [he] at hs; cases hs
    · rcases h with ⟨_, he⟩ | ⟨a, _, h⟩
      · rw [he] at hs; cases hs
      · rcases h with ⟨e, hrd, he⟩ | ⟨raw, hrd, he⟩
        · rw [he] at hs; cases hs
        · exact ⟨a, raw, hrd, by rw [he], by rw [he]⟩

theorem c2_reads_hit_the_bus_witness :
    ∃ a d, okVme.readRegisterA16D32 s0.base a = .ok d ∧
      (readUInt32Digital okVme s0 0 P_ModCtrl 0xFF).trace =
        [VmeOp.readA16D32 s0.base a] ∧
      (readUInt32Digital okVme s0 0 P_ModCtrl 0xFF).value =
        some (u32 d &&& u32 0xFF) :=
  (c2_reads_hit_the_bus natFloatOps okVme s0 0 P_ModCtrl 0xFF).1 (by decide)

theorem readUInt32Digital_once {F64 : Type} (vme : VmeMaster) (s : DriverState F64)
    (rawAddr : Int) (function mask : Nat) :
    (readUInt32Digital vme s rawAddr function mask).trace = [] ∨
    ∃ op, (readUInt32Digital vme s rawAddr function mask).trace = [op] ∧
      (op.fails vme = true →
        (readUInt32Digital vme s rawAddr function mask).status = asynError) := by
  rcases readUInt32Digital_spec vme s rawAddr function mask with
    ⟨_, he⟩ | ⟨addr, _, h⟩
  · rw [he]; exact Or.inl rfl
  · rcases h with ⟨_, he⟩ | ⟨a, _, h⟩
    · rw [he]; exact Or.inl rfl
    · rcases h with ⟨e, hrd, he⟩ | ⟨d, hrd, he⟩
      · rw [he]; exact Or.inr ⟨_, rfl, fun _ => rfl⟩
      · rw [he]
        refine Or.inr ⟨_, rfl, fun hf => ?_⟩
        exfalso
        simp only [VmeOp.fails] at hf
        rw [hrd] at hf
        cases hf

theorem writeUInt32Digital_once {F64 : Type} (vme : VmeMaster) (s : DriverState F64)
    (rawAddr : Int) (function value mask : Nat) :
    (writeUInt32Digital vme s rawAddr function value mask).trace = [] ∨
    ∃ op, (writeUInt32Digital vme s rawAddr function value mask).trace = [op] ∧
      (op.fails vme = true →
        (writeUInt32Digital vme s rawAddr function value mask).status = asynError) := by
  rcases writeUInt32Digital_spec vme s rawAddr function value mask with
    ⟨_, he⟩ | ⟨_, h⟩
  · rw [he]; exact Or.inl rfl
  · rcases h with ⟨_, he⟩ | ⟨addr, _, h⟩
    · rw [he]; exact Or.inl rfl
    · rcases h with ⟨_, he⟩ | ⟨a, _, h⟩
      · rw [he]; exact Or.inl rfl
      · rcases h with ⟨e, hwr, he⟩ | ⟨hwr, he⟩
        · rw [he]; exact Or.inr ⟨_, rfl, fun _ => rfl⟩
        · rw [he]
          refine Or.inr ⟨_, rfl, fun hf => ?_⟩
          exfalso
          simp only [VmeOp.fails] at hf
          rw [hwr] at hf
          cases hf

theorem readFloat64_once {F32 F64 : Type} (ops : FloatOps F32 F64)
    (vme : VmeMaster) (s : DriverState F64) (rawAddr : Int) (function : Nat) :
    (readFloat64 ops vme s rawAddr function).trace = [] ∨
    ∃ op, (readFloat64 ops vme s rawAddr function).trace = [op] ∧
      (op.fails vme = true →
        (readFloat64 ops vme s rawAddr function).status = asynError) := by
  rcases readFloat64_spec ops vme s rawAddr function with
    ⟨_, he⟩ | ⟨addr, _, h⟩
  · rw [he]; exact Or.inl rfl
  · rcases h with ⟨_, he⟩ | ⟨a, _, h⟩
    · rw [he]; exact Or.inl rfl
    · rcases h with ⟨e, hrd, he⟩ | ⟨raw, hrd, he⟩
      · rw [he]; exact Or.inr ⟨_, rfl, fun _ => rfl⟩
      · rw [he]
        refine Or.inr ⟨_, rfl, fun hf => ?_⟩
        exfalso
        simp only [VmeOp.fails] at hf
        rw [hrd] at hf
        cases hf

theorem writeFloat64_once {F32 F64 : Type} (ops : FloatOps F32 F64)
    (vme : VmeMaster) (s : DriverState F64) (rawAddr : Int) (function : Nat)
    (value : F64) :
    (writeFloat64 ops vme s rawAddr function value).trace = [] ∨
    ∃ op, (writeFloat64 ops vme s rawAddr function value).trace = [op] ∧
      (op.fails vme = true →
        (writeFloat64 ops vme s rawAddr function value).status = asynError) := by
  rcases writeFloat64_spec ops vme s rawAddr function value with
    ⟨_, he⟩ | ⟨_, h⟩
  · rw [he]; exact Or.inl rfl
  · rcases h with ⟨_, he⟩ | ⟨addr, _, h⟩
    · rw [he]; exact Or.inl rfl
    · rcases h with ⟨_, he⟩ | ⟨a, _, h⟩
      · rw [he]; exact Or.inl rfl
      · rcases h with ⟨e, hwr, he⟩ | ⟨hwr, he⟩
        · rw [he]; exact Or.inr ⟨_, rfl, fun _ => rfl⟩
        · rw [he]
          refine Or.inr ⟨_, rfl, fun hf => ?_⟩
          exfalso
          simp only [VmeOp.fails] at hf
          rw [hwr] at hf
          cases hf

/-- C3: no retry or backoff logic.  A single invocation of any of the four
entry points performs at most one VME register access (its trace has at most
one element), and when that access throws `VmeException` the entry point
returns `asynError` — the failed access is never attempted again within the
invocation. -/
theorem c3_at_most_one_access_no_retry {F32 F64 : Type} (ops : FloatOps F32 F64)
    (vme : VmeMaster) (s : DriverState F64) (rawAddr : Int)
    (function mask value : Nat) (fval : F64) :
    ((readUInt32Digital vme s rawAddr function mask).trace.length ≤ 1 ∧
     (writeUInt32Digital vme s rawAddr function value mask).trace.length ≤ 1 ∧
     (readFloat64 ops vme s rawAddr function).trace.length ≤ 1 ∧
     (writeFloat64 ops vme s rawAddr function fval).trace.length ≤ 1) ∧
    ((∀ op ∈ (readUInt32Digital vme s rawAddr function mask).trace,
        op.fails vme = true →
        (readUInt32Digital vme s rawAddr function mask).status = asynError) ∧
     (∀ op ∈ (writeUInt32Digital vme s rawAddr function value mask).trace,
        op.fails vme = true →
        (writeUInt32Digital vme s rawAddr function value mask).status = asynError) ∧
     (∀ op ∈ (readFloat64 ops vme s rawAddr function).trace,
        op.fails vme = true →
        (readFloat64 ops vme s rawAddr function).status = asynError) ∧
     (∀ op ∈ (writeFloat64 ops vme s rawAddr function fval).trace,
        op.fails vme = true →
        (writeFloat64 ops vme s rawAddr function fval).status = asynError)) := by
  have h1 := readUInt32Digital_once vme s rawAddr function mask
  have h2 := writeUInt32Digital_once vme s rawAddr function value mask
  have h3 := readFloat64_once ops vme s rawAddr function
  have h4 := writeFloat64_once ops vme s rawAddr function fval
  constructor
  · refine ⟨?_, ?_, ?_, ?_⟩
    · rcases h1 with h | ⟨op, h, _⟩ <;> rw [h] <;> simp
    · rcases h2 with h | ⟨op, h, _⟩ <;> rw [h] <;> simp
    · rcases h3 with h | ⟨op, h, _⟩ <;> rw [h] <;> simp
    · rcases h4 with h | ⟨op, h, _⟩ <;> rw [h] <;> simp
  · refine ⟨?_, ?_, ?_, ?_⟩
    · intro op hop hf
      rcases h1 with h | ⟨op', h, himp⟩
      · rw [h] at hop; cases hop
      · rw [h] at hop
        simp only [List.mem_singleton] at hop
        subst hop
        exact himp hf
    · intro op hop hf
      rcases h2 with h | ⟨op', h, himp⟩
      · rw [h] at hop; cases hop
      · rw [h] at hop
        simp only [List.mem_singleton] at hop
        subst hop
        exact himp hf
    · intro op hop hf
      rcases h3 with h | ⟨op', h, himp⟩
      · rw [h] at hop; cases hop
      · rw [h] at hop
        simp only [List.mem_singleton] at hop
        subst hop
        exact himp hf
    · intro op hop hf
      rcases h4 with h | ⟨op', h, himp⟩
      · rw [h] at hop; cases hop
      · rw [h] at hop
        simp only [List.mem_singleton] at hop
        subst hop
        exact himp hf

theorem c3_at_most_one_access_no_retry_witness :
    (readUInt32Digital failVme s0 0 P_ModCtrl 0xFF).status = asynError :=
  ((c3_at_most_one_access_no_retry natFloatOps failVme s0 0 P_ModCtrl 0xFF 0
      0).2.1 (VmeOp.readA16D32 0x4000 0x000c) (by decide) (by decide))

/-- C4: error paths preserve the state.  For every one of the four entry
points, a function identifier found in neither the module table nor the
channel table makes the call return `asynError`, perform no VME bus access,
and leave every stored parameter value unchanged; likewise, when the VME
access throws `VmeException` the call returns `asynError` with a message
stored in `pasynUser->errorMessage` and every stored parameter value
unchanged. -/
theorem c4_error_paths_preserve_state {F32 F64 : Type} (ops : FloatOps F32 F64)
    (vme : VmeMaster) (s : DriverState F64) (rawAddr : Int)
    (function mask value : Nat) (fval : F64) :
    ((modcmds function = none ∧ chancmds function = none) →
      ((readUInt32Digital vme s rawAddr function mask).status = asynError ∧
       (readUInt32Digital vme s rawAddr function mask).trace = [] ∧
       (readUInt32Digital vme s rawAddr function mask).state = s) ∧
      ((writeUInt32Digital vme s rawAddr function value mask).status = asynError ∧
       (writeUInt32Digital vme s rawAddr function value mask).trace = [] ∧
       (writeUInt32Digital vme s rawAddr function value mask).state = s) ∧
      ((readFloat64 ops vme s rawAddr function).status = asynError ∧
       (readFloat64 ops vme s rawAddr function).trace = [] ∧
       (readFloat64 ops vme s rawAddr function).state = s) ∧
      ((writeFloat64 ops vme s rawAddr function fval).status = asynError ∧
       (writeFloat64 ops vme s rawAddr function fval).trace = [] ∧
       (writeFloat64 ops vme s rawAddr function fval).state = s)) ∧
    ((∀ op ∈ (readUInt32Digital vme s rawAddr function mask).trace,
        op.fails vme = true →
        (readUInt32Digital vme s rawAddr function mask).status = asynError ∧
        (readUInt32Digital vme s rawAddr function mask).errorMessage.isSome = true ∧
        (readUInt32Digital vme s rawAddr function mask).state = s) ∧
     (∀ op ∈ (writeUInt32Digital vme s rawAddr function value mask).trace,
        op.fails vme = true →
        (writeUInt32Digital vme s rawAddr function value mask).status = asynError ∧
        (writeUInt32Digital vme s rawAddr function value mask).errorMessage.isSome = true ∧
        (writeUInt32Digital vme s rawAddr function value mask).state = s) ∧
     (∀ op ∈ (readFloat64 ops vme s rawAddr function).trace,
        op.fails vme = true →
        (readFloat64 ops vme s rawAddr function).status = asynError ∧
        (readFloat64 ops vme s rawAddr function).errorMessage.isSome = true ∧
        (readFloat64 ops vme s rawAddr function).state = s) ∧
     (∀ op ∈ (writeFloat64 ops vme s rawAddr function fval).trace,
        op.fails vme = true →
        (writeFloat64 ops vme s rawAddr function fval).status = asynError ∧
        (writeFloat64 ops vme s rawAddr function fval).errorMessage.isSome = true ∧
        (writeFloat64 ops vme s rawAddr function fval).state = s)) := by
  constructor
  · rintro ⟨hmod, hchan⟩
    refine ⟨?_, ?_, ?_, ?_⟩
    · rcases readUInt32Digital_spec vme s rawAddr function mask with
        ⟨_, he⟩ | ⟨addr, _, h⟩
      · rw [he]; exact ⟨rfl, rfl, rfl⟩
      · rcases h with ⟨_, he⟩ | ⟨a, hla, _⟩
        · rw [he]; exact ⟨rfl, rfl, rfl⟩
        · rw [lookupVmeAddr_none function addr hmod hchan] at hla; cases hla
    · rcases writeUInt32Digital_spec vme s rawAddr function value mask with
        ⟨hro, _⟩ | ⟨_, h⟩
      · rcases hro with rfl | rfl
        · exact absurd hmod (by decide)
        · exact absurd hchan (by decide)
      · rcases h with ⟨_, he⟩ | ⟨addr, _, h⟩
        · rw [he]; exact ⟨rfl, rfl, rfl⟩
        · rcases h with ⟨_, he⟩ | ⟨a, hla, _⟩
          · rw [he]; exact ⟨rfl, rfl, rfl⟩
          · rw [lookupVmeAddr_none function addr hmod hchan] at hla; cases hla
    · rcases readFloat64_spec ops vme s rawAddr function with
        ⟨_, he⟩ | ⟨addr, _, h⟩
      · rw [he]; exact ⟨rfl, rfl, rfl⟩
      · rcases h with ⟨_, he⟩ | ⟨a, hla, _⟩
        · rw [he]; exact ⟨rfl, rfl, rfl⟩
        · rw [lookupVmeAddr_none function addr hmod hchan] at hla; cases hla
    · rcases writeFloat64_spec ops vme s rawAddr function fval with
        ⟨hro, _⟩ | ⟨_, h⟩
      · rcases hro with rfl | rfl | rfl | rfl | rfl | rfl | rfl | rfl <;>
          first
          | exact absurd hmod (by decide)
          | exact absurd hchan (by decide)
      · rcases h with ⟨_, he⟩ | ⟨addr, _, h⟩
        · rw [he]; exact ⟨rfl, rfl, rfl⟩
        · rcases h with ⟨_, he⟩ | ⟨a, hla, _⟩
          · rw [he]; exact ⟨rfl, rfl, rfl⟩
          · rw [lookupVmeAddr_none function addr hmod hchan] at hla; cases hla
  · refine ⟨?_, ?_, ?_, ?_⟩
    · intro op hop hf
      rcases readUInt32Digital_spec vme s rawAddr function mask with
        ⟨_, he⟩ | ⟨addr, _, h⟩
      · rw [he] at hop; cases hop
      · rcases h with ⟨_, he⟩ | ⟨a, _, h⟩
        · rw [he] at hop; cases hop
        · rcases h with ⟨e, hrd, he⟩ | ⟨d, hrd, he⟩
          · rw [he]; exact ⟨rfl, rfl, rfl⟩
          · rw [he] at hop
            simp only [List.mem_singleton] at hop
            subst hop
            simp only [VmeOp.fails] at hf
            rw [hrd] at hf
            cases hf
    · intro op hop hf
      rcases writeUInt32Digital_spec vme s rawAddr function value mask with
        ⟨_, he⟩ | ⟨_, h⟩
      · rw [he] at hop; cases hop
      · rcases h with ⟨_, he⟩ | ⟨addr, _, h⟩
        · rw [he] at hop; cases hop
        · rcases h with ⟨_, he⟩ | ⟨a, _, h⟩
          · rw [he] at hop; cases hop
          · rcases h with ⟨e, hwr, he⟩ | ⟨hwr, he⟩
            · rw [he]; exact ⟨rfl, rfl, rfl⟩
            · rw [he] at hop
              simp only [List.mem_singleton] at hop
              subst hop
              simp only [VmeOp.fails] at hf
              rw [hwr] at hf
              cases hf
    · intro op hop hf
      rcases readFloat64_spec ops vme s rawAddr function with
        ⟨_, he⟩ | ⟨addr, _, h⟩
      · rw [he] at hop; cases hop
      · rcases h with ⟨_, he⟩ | ⟨a, _, h⟩
        · rw [he] at hop; cases hop
        · rcases h with ⟨e, hrd, he⟩ | ⟨raw, hrd, he⟩
          · rw [he]; exact ⟨rfl, rfl, rfl⟩
          · rw [he] at hop
            simp only [List.mem_singleton] at hop
            subst hop
            simp only [VmeOp.fails] at hf
            rw [hrd] at hf
            cases hf
    · intro op hop hf
      rcases writeFloat64_spec ops vme s rawAddr function fval with
        ⟨_, he⟩ | ⟨_, h⟩
      · rw [he] at hop; cases hop
      · rcases h with ⟨_, he⟩ | ⟨addr, _, h⟩
        · rw [he] at hop; cases hop
        · rcases h with ⟨_, he⟩ | ⟨a, _, h⟩
          · rw [he] at hop; cases hop
          · rcases h with ⟨e, hwr, he⟩ | ⟨hwr, he⟩
            · rw [he]; exact ⟨rfl, rfl, rfl⟩
            · rw [he] at hop
              simp only [List.mem_singleton] at hop
              subst hop
              simp only [VmeOp.fails] at hf
              rw [hwr] at hf
              cases hf

theorem c4_error_paths_preserve_state_witness :
    (readUInt32Digital okVme s0 0 99 0).status = asynError ∧
    (readUInt32Digital okVme s0 0 99 0).trace = [] ∧
    (readUInt32Digital okVme s0 0 99 0).state = s0 := by
  have h :=
    ((c4_error_paths_preserve_state natFloatOps okVme s0 0 99 0 0 0).1
      ⟨by decide, by decide⟩).1
  exact h

/-- C6: the register-address translation uses nothing beyond the two static
lookup tables: every VME address accessed by any of the four entry points
equals `lookupVmeAddr function addr`, the pure function built from the
static tables `modcmds` and `chancmds` (with the static `chanAddr` channel
base for channel parameters); and the parameter identifier enters this
computation only through its two table entries — any two identifiers with
equal entries in both tables are translated to identical addresses. -/
theorem c6_two_table_translation {F32 F64 : Type} (ops : FloatOps F32 F64)
    (vme : VmeMaster) (s : DriverState F64) (rawAddr : Int)
    (function mask value : Nat) (fval : F64) :
    (∀ op, (op ∈ (readUInt32Digital vme s rawAddr function mask).trace ∨
            op ∈ (writeUInt32Digital vme s rawAddr function value mask).trace ∨
            op ∈ (readFloat64 ops vme s rawAddr function).trace ∨
            op ∈ (writeFloat64 ops vme s rawAddr function fval).trace) →
       ∃ addr, getAddress 8 rawAddr = some addr ∧
         lookupVmeAddr function addr = some op.offset) ∧
    (∀ f1 f2 addr, modcmds f1 = modcmds f2 → chancmds f1 = chancmds f2 →
       lookupVmeAddr f1 addr = lookupVmeAddr f2 addr) := by
  constructor
  · intro op hop
    rcases hop with h | h | h | h
    · obtain ⟨addr, a, hga, hla, rfl⟩ :=
        readUInt32Digital_trace_mem vme s rawAddr function mask op h
      exact ⟨addr, hga, hla⟩
    · obtain ⟨addr, a, hga, hla, rfl⟩ :=
        writeUInt32Digital_trace_mem vme s rawAddr function value mask op h
      exact ⟨addr, hga, hla⟩
    · obtain ⟨addr, a, hga, hla, rfl⟩ :=
        readFloat64_trace_mem ops vme s rawAddr function op h
      exact ⟨addr, hga, hla⟩
    · obtain ⟨addr, a, hga, hla, rfl⟩ :=
        writeFloat64_trace_mem ops vme s rawAddr function fval op h
      exact ⟨addr, hga, hla⟩
  · intro f1 f2 addr h1 h2
    unfold lookupVmeAddr
    rw [h1, h2]

theorem c6_two_table_translation_witness :
    ∃ addr, getAddress 8 (0 : Int) = some addr ∧
      lookupVmeAddr P_ModCtrl addr =
        some (VmeOp.offset (VmeOp.readA16D32 0x4000 0x000c)) :=
  (c6_two_table_translation natFloatOps okVme s0 0 P_ModCtrl 0xFF 0 0).1
    (VmeOp.readA16D32 0x4000 0x000c) (Or.inl (by decide))

/-- C7: every hardware access of the four entry points is a 32-bit register
access (a `readRegisterA16D32` or a `writeRegisterA16D32`); a successful
`readFloat64` returns the freshly read 32 register bits reinterpreted as an
IEEE-754 single through the `float_t` union, scaled by `1.e6` when the
parameter is `P_ChanImom` or `P_ChanIset`; and the 32-bit datum written by
`writeFloat64` is the union reinterpretation of the value narrowed to single
precision, scaled by `1.e-6` when the parameter is `P_ChanIset`. -/
theorem c7_32bit_access_union_translation {F32 F64 : Type}
    (ops : FloatOps F32 F64) (vme : VmeMaster) (s : DriverState F64)
    (rawAddr : Int) (function mask value : Nat) (fval : F64) :
    (∀ op, (op ∈ (readUInt32Digital vme s rawAddr function mask).trace ∨
            op ∈ (writeUInt32Digital vme s rawAddr function value mask).trace ∨
            op ∈ (readFloat64 ops vme s rawAddr function).trace ∨
            op ∈ (writeFloat64 ops vme s rawAddr function fval).trace) →
       (∃ b a, op = VmeOp.readA16D32 b a) ∨
       (∃ b a v, op = VmeOp.writeA16D32 b a v)) ∧
    ((readFloat64 ops vme s rawAddr function).status = asynSuccess →
      ∃ a raw, vme.readRegisterA16D32 s.base a = .ok raw ∧
        (readFloat64 ops vme s rawAddr function).value =
          some (ops.f32ToF64 (if function = P_ChanImom ∨ function = P_ChanIset
            then ops.mulMega (ops.bitsToF32 (u32 raw))
            else ops.bitsToF32 (u32 raw)))) ∧
    (∀ op ∈ (writeFloat64 ops vme s rawAddr function fval).trace,
      ∃ a, op = VmeOp.writeA16D32 s.base a
        (u32 (ops.f32ToBits (if function = P_ChanIset
          then ops.mulMicro (ops.f64ToF32 fval) else ops.f64ToF32 fval)))) := by
  refine ⟨?_, ?_, ?_⟩
  · intro op hop
    rcases hop with h | h | h | h
    · obtain ⟨addr, a, _, _, rfl⟩ :=
        readUInt32Digital_trace_mem vme s rawAddr function mask op h
      exact Or.inl ⟨_, _, rfl⟩
    · obtain ⟨addr, a, _, _, rfl⟩ :=
        writeUInt32Digital_trace_mem vme s rawAddr function value mask op h
      exact Or.inr ⟨_, _, _, rfl⟩
    · obtain ⟨addr, a, _, _, rfl⟩ :=
        readFloat64_trace_mem ops vme s rawAddr function op h
      exact Or.inl ⟨_, _, rfl⟩
    · obtain ⟨addr, a, _, _, rfl⟩ :=
        writeFloat64_trace_mem ops vme s rawAddr function fval op h
      exact Or.inr ⟨_, _, _, rfl⟩
  · intro hs
    rcases readFloat64_spec ops vme s rawAddr function with
      ⟨_, he⟩ | ⟨addr, _, h⟩
    · rw [he] at hs; cases hs
    · rcases h with ⟨_, he⟩ | ⟨a, _, h⟩
      · rw [he] at hs; cases hs
      · rcases h with ⟨e, hrd, he⟩ | ⟨raw, hrd, he⟩
        · rw [he] at hs; cases hs
        · refine ⟨a, raw, hrd, ?_⟩
          rw [he]
          rfl
  · intro op hop
    obtain ⟨addr, a, _, _, rfl⟩ :=
      writeFloat64_trace_mem ops vme s rawAddr function fval op hop
    exact ⟨a, rfl⟩

theorem c7_32bit_access_union_translation_witness :
    ∃ a raw, okVme.readRegisterA16D32 s0.base a = .ok raw ∧
      (readFloat64 natFloatOps okVme s0 2 P_ChanIset).value =
        some (natFloatOps.f32ToF64
          (if P_ChanIset = P_ChanImom ∨ P_ChanIset = P_ChanIset
            then natFloatOps.mulMega (natFloatOps.bitsToF32 (u32 raw))
            else natFloatOps.bitsToF32 (u32 raw))) :=
  (c7_32bit_access_union_translation natFloatOps okVme s0 2 P_ChanIset 0 0
      0).2.1 (by decide)

/-- The register offsets an entry-point call accesses, as a pure function of
the call's channel address and parameter identifier alone. -/
def staticOffsets (rawAddr : Int) (function : Nat) : List Nat :=
  match getAddress 8 rawAddr with
  | none => []
  | some addr =>
    match lookupVmeAddr function addr with
    | none => []
    | some a => [a]

theorem readUInt32Digital_offsets {F64 : Type} (vme : VmeMaster)
    (s : DriverState F64) (rawAddr : Int) (function mask : Nat) :
    (readUInt32Digital vme s rawAddr function mask).trace.map VmeOp.offset =
      staticOffsets rawAddr function := by
  unfold readUInt32Digital staticOffsets
  split
  · rfl
  · split
    · rfl
    · split <;> rfl

theorem writeUInt32Digital_offsets {F64 : Type} (vme : VmeMaster)
    (s : DriverState F64) (rawAddr : Int) (function value mask : Nat) :
    (writeUInt32Digital vme s rawAddr function value mask).trace.map VmeOp.offset =
      if function = P_ModStatus ∨ function = P_ChanStatus then []
      else staticOffsets rawAddr function := by
  unfold writeUInt32Digital staticOffsets
  split
  · rfl
  · split
    · rfl
    · split
      · rfl
      · split <;> rfl

theorem readFloat64_offsets {F32 F64 : Type} (ops : FloatOps F32 F64)
    (vme : VmeMaster) (s : DriverState F64) (rawAddr : Int) (function : Nat) :
    (readFloat64 ops vme s rawAddr function).trace.map VmeOp.offset =
      staticOffsets rawAddr function := by
  unfold readFloat64 staticOffsets
  split
  · rfl
  · split
    · rfl
    · split <;> rfl

theorem writeFloat64_offsets {F32 F64 : Type} (ops : FloatOps F32 F64)
    (vme : VmeMaster) (s : DriverState F64) (rawAddr : Int) (function : Nat)
    (value : F64) :
    (writeFloat64 ops vme s rawAddr function value).trace.map VmeOp.offset =
      if function = P_VMax ∨ function = P_IMax ∨ function = P_SupplyP5 ∨
          function = P_SupplyP12 ∨ function = P_SupplyN12 ∨
          function = P_Temperature ∨ function = P_ChanVmom ∨
          function = P_ChanImom then []
      else staticOffsets rawAddr function := by
  unfold writeFloat64 staticOffsets
  simp only [writeFloat64Datum_fold]
  split
  · rfl
  · split
    · rfl
    · split
      · rfl
      · split <;> rfl

/-- C8: no protocol state machine.  The VME register addresses accessed by an
entry-point call are a pure function of the call's parameter identifier and
channel address alone: two calls to the same entry point with the same
identifier and channel address access exactly the same register addresses,
regardless of the driver states produced by any preceding operation
sequences, of the bus behaviour, and of the remaining call arguments. -/
theorem c8_address_history_independent {F32 F64 G32 G64 : Type}
    (ops1 : FloatOps F32 F64) (ops2 : FloatOps G32 G64)
    (vme1 vme2 : VmeMaster) (s1 : DriverState F64) (s2 : DriverState G64)
    (rawAddr : Int) (function mask1 mask2 value1 value2 : Nat)
    (fval1 : F64) (fval2 : G64) :
    ((readUInt32Digital vme1 s1 rawAddr function mask1).trace.map VmeOp.offset =
     (readUInt32Digital vme2 s2 rawAddr function mask2).trace.map VmeOp.offset) ∧
    ((writeUInt32Digital vme1 s1 rawAddr function value1 mask1).trace.map VmeOp.offset =
     (writeUInt32Digital vme2 s2 rawAddr function value2 mask2).trace.map VmeOp.offset) ∧
    ((readFloat64 ops1 vme1 s1 rawAddr function).trace.map VmeOp.offset =
     (readFloat64 ops2 vme2 s2 rawAddr function).trace.map VmeOp.offset) ∧
    ((writeFloat64 ops1 vme1 s1 rawAddr function fval1).trace.map VmeOp.offset =
     (writeFloat64 ops2 vme2 s2 rawAddr function fval2).trace.map VmeOp.offset) := by
  refine ⟨?_, ?_, ?_, ?_⟩
  · rw [readUInt32Digital_offsets, readUInt32Digital_offsets]
  · rw [writeUInt32Digital_offsets, writeUInt32Digital_offsets]
  · rw [readFloat64_offsets, readFloat64_offsets]
  · rw [writeFloat64_offsets, writeFloat64_offsets]

/-- C10: the driver merely calls the external VME-access library.  Every bus
access made by the four entry points goes through the `VmeMaster` oracle and
carries the base address `_base` held in the driver state; the constructor
sets `_base = BA`, and no entry point modifies it (the post-call state keeps
the same base). -/
theorem c10_all_access_via_vme_base {F32 F64 : Type} (ops : FloatOps F32 F64)
    (vme : VmeMaster) (s : DriverState F64) (rawAddr : Int)
    (function mask value : Nat) (fval : F64) (BA : Nat) :
    (drvAsynIsegVds F64 BA).base = BA ∧
    ((readUInt32Digital vme s rawAddr function mask).state.base = s.base ∧
     (writeUInt32Digital vme s rawAddr function value mask).state.base = s.base ∧
     (readFloat64 ops vme s rawAddr function).state.base = s.base ∧
     (writeFloat64 ops vme s rawAddr function fval).state.base = s.base) ∧
    (∀ op, (op ∈ (readUInt32Digital vme s rawAddr function mask).trace ∨
            op ∈ (writeUInt32Digital vme s rawAddr function value mask).trace ∨
            op ∈ (readFloat64 ops vme s rawAddr function).trace ∨
            op ∈ (writeFloat64 ops vme s rawAddr function fval).trace) →
       op.base = s.base) := by
  refine ⟨rfl, ⟨?_, ?_, ?_, ?_⟩, ?_⟩
  · rcases readUInt32Digital_spec vme s rawAddr function mask with
      ⟨_, he⟩ | ⟨addr, _, h⟩
    · rw [he]
    · rcases h with ⟨_, he⟩ | ⟨a, _, ⟨e, _, he⟩ | ⟨d, _, he⟩⟩ <;> (rw [he]; try rfl)
  · rcases writeUInt32Digital_spec vme s rawAddr function value mask with
      ⟨_, he⟩ | ⟨_, ⟨_, he⟩ | ⟨addr, _, ⟨_, he⟩ | ⟨a, _, ⟨e, _, he⟩ | ⟨_, he⟩⟩⟩⟩ <;>
      (rw [he]; try rfl)
  · rcases readFloat64_spec ops vme s rawAddr function with
      ⟨_, he⟩ | ⟨addr, _, ⟨_, he⟩ | ⟨a, _, ⟨e, _, he⟩ | ⟨raw, _, he⟩⟩⟩ <;>
      (rw [he]; try rfl)
  · rcases writeFloat64_spec ops vme s rawAddr function fval with
      ⟨_, he⟩ | ⟨_, ⟨_, he⟩ | ⟨addr, _, ⟨_, he⟩ | ⟨a, _, ⟨e, _, he⟩ | ⟨_, he⟩⟩⟩⟩ <;>
      (rw [he]; try rfl)
  · intro op hop
    rcases hop with h | h | h | h
    · obtain ⟨addr, a, _, _, rfl⟩ :=
        readUInt32Digital_trace_mem vme s rawAddr function mask op h
      rfl
    · obtain ⟨addr, a, _, _, rfl⟩ :=
        writeUInt32Digital_trace_mem vme s rawAddr function value mask op h
      rfl
    · obtain ⟨addr, a, _, _, rfl⟩ :=
        readFloat64_trace_mem ops vme s rawAddr function op h
      rfl
    · obtain ⟨addr, a, _, _, rfl⟩ :=
        writeFloat64_trace_mem ops vme s rawAddr function fval op h
      rfl

theorem c10_all_access_via_vme_base_witness :
    VmeOp.base (VmeOp.readA16D32 0x4000 0x000c) = s0.base :=
  (c10_all_access_via_vme_base natFloatOps okVme s0 0 P_ModCtrl 0xFF 0 0
      0x4000).2.2 (VmeOp.readA16D32 0x4000 0x000c) (Or.inl (by decide))
